import Mathlib

/-!
Verification of the `minsev` severity-gating log processor
(`processors/minsev/minsev.go`).

The Go code wraps a downstream `log.Processor` and forwards `OnEmit` /
`Enabled` calls only when the record (or query) severity is at least the
minimum reported by a `Severitier` provider.  We shallowly embed the code:

* Severities are `Int` (an ordered integer scale, as in the SDK).
* A downstream `log.Processor` value is a structure of pure functions;
  the optional `log.FilterProcessor` capability of the same value is the
  optional `enabledFilter` field.
* A `Severitier` is modelled as a read oracle `Nat → Int`: the value
  returned by its `Severity()` method on the n-th read.  A constant
  oracle is a fixed provider; a non-constant oracle is a dynamic one
  (such as a `SeverityVar` being updated between calls).  Gate methods
  take the current read index and report the next one, so the number of
  provider reads an operation performs is visible in its result.
* Go `nil` interface values are `Option.none`; a method call that would
  dereference a nil interface (a Go panic) returns `none`.
* Each gate operation returns, besides its Go return value, the list of
  calls it made to the downstream processor and the post-state of the
  gate, so that claims about "downstream is not invoked" and about
  immutability are statable.
-/

namespace Minsev

/-- Context values are opaque tokens, only propagated to downstream calls. -/
abbrev Ctx := Nat

/-- Opaque error values returned by processors; `none` is Go's `nil` error. -/
abbrev Err := Nat

/-- A `log.Record` as used by the code: the `Severity()` accessor plus an
opaque payload standing for every other field (so "forwarded unchanged" is
meaningful). -/
structure Record where
  severity : Int
  payload : Nat
  deriving DecidableEq, Repr

/-- `log.EnabledParameters`: the `Severity` field read by the code plus an
opaque remainder. -/
structure EnabledParameters where
  Severity : Int
  rest : Nat
  deriving DecidableEq, Repr

/-- A call made to the downstream `log.Processor`, with its arguments. -/
inductive DownCall where
  | emit (ctx : Ctx) (r : Record)
  | enabledQ (ctx : Ctx) (param : EnabledParameters)
  | shutdownCall (ctx : Ctx)
  | flushCall (ctx : Ctx)
  deriving DecidableEq, Repr

/-- A (non-nil) downstream `log.Processor` value.  `enabledFilter` is
`some f` exactly when the same dynamic value also implements
`log.FilterProcessor`, `f` being its `Enabled` method. -/
structure Processor where
  onEmit : Ctx → Record → Option Err
  enabledFilter : Option (Ctx → EnabledParameters → Bool)
  shutdown : Ctx → Option Err
  forceFlush : Ctx → Option Err

/-- A (non-nil) `Severitier`: the oracle of values its `Severity()` method
returns on successive reads. -/
abbrev Severitier := Nat → Int

/-- Modelled from the spec: the `minsev` severity scale and the
`SeverityInfo` constant live in `severity.go`, which is not part of the
sources; the spec fixes the default provider to one constantly returning
the "informational" level.  We use the SDK numeric value 9 for Info. -/
def SeverityInfo : Severitier := fun _ => 9

/-- `noopProcessor{}`: `OnEmit`, `Shutdown`, `ForceFlush` return nil and
`Enabled` returns false.  Note that it has an `Enabled` method, so it does
implement `log.FilterProcessor`. -/
def noopProcessor : Processor :=
  { onEmit := fun _ _ => none,
    enabledFilter := some (fun _ _ => false),
    shutdown := fun _ => none,
    forceFlush := fun _ => none }

/-- `var defaultProcessor = noopProcessor{}`. -/
def defaultProcessor : Processor := noopProcessor

/-- The `LogProcessor` struct: the embedded (possibly nil) `log.Processor`,
the optional captured `log.FilterProcessor` capability, and the (possibly
nil) `Severitier`. -/
structure LogProcessor where
  Processor : Option Processor
  filter : Option (Ctx → EnabledParameters → Bool)
  sev : Option Severitier

/-- Result of `LogProcessor.OnEmit`: the returned error, the downstream
calls made, the next provider read index, and the gate post-state. -/
structure EmitResult where
  err : Option Err
  calls : List DownCall
  reads : Nat
  gate : LogProcessor

/-- Result of `LogProcessor.Enabled`. -/
structure EnabledResult where
  ok : Bool
  calls : List DownCall
  reads : Nat
  gate : LogProcessor

/-- Result of the promoted `Shutdown` / `ForceFlush` pass-through calls. -/
structure LifecycleResult where
  err : Option Err
  calls : List DownCall
  gate : LogProcessor

/-- `NewLogProcessor`: substitute `defaultProcessor` for a nil downstream
and `SeverityInfo` for a nil severitier, then capture the downstream's
filter capability if it has one. -/
def NewLogProcessor (downstream : Option Processor) (severity : Option Severitier) :
    LogProcessor :=
  { Processor := some (downstream.getD defaultProcessor),
    filter := (downstream.getD defaultProcessor).enabledFilter,
    sev := some (severity.getD SeverityInfo) }

/-- `OnEmit`: if `record.Severity() >= p.sev.Severity()`, forward to the
wrapped processor and return its result; otherwise drop the record and
return nil.  A nil `sev` or (when forwarding) nil `Processor` panics
(`none`). -/
def LogProcessor.OnEmit (p : LogProcessor) (k : Nat) (ctx : Ctx) (r : Record) :
    Option EmitResult :=
  match p.sev with
  | none => none
  | some S =>
    if r.severity ≥ S k then
      match p.Processor with
      | none => none
      | some d => some ⟨d.onEmit ctx r, [DownCall.emit ctx r], k + 1, p⟩
    else
      some ⟨none, [], k + 1, p⟩

/-- `Enabled`: with a captured filter, `sev >= p.sev.Severity() &&
p.filter.Enabled(ctx, param)` with Go's short-circuit (the filter is not
called when the severity test fails); without one, just the severity
test. -/
def LogProcessor.Enabled (p : LogProcessor) (k : Nat) (ctx : Ctx)
    (param : EnabledParameters) : Option EnabledResult :=
  let sev := param.Severity
  match p.filter with
  | some f =>
    match p.sev with
    | none => none
    | some S =>
      if sev ≥ S k then
        some ⟨f ctx param, [DownCall.enabledQ ctx param], k + 1, p⟩
      else
        some ⟨false, [], k + 1, p⟩
  | none =>
    match p.sev with
    | none => none
    | some S => some ⟨decide (sev ≥ S k), [], k + 1, p⟩

/-- The promoted `Shutdown` of the embedded processor: `p.Processor.Shutdown(ctx)`. -/
def LogProcessor.Shutdown (p : LogProcessor) (ctx : Ctx) : Option LifecycleResult :=
  match p.Processor with
  | none => none
  | some d => some ⟨d.shutdown ctx, [DownCall.shutdownCall ctx], p⟩

/-- The promoted `ForceFlush` of the embedded processor: `p.Processor.ForceFlush(ctx)`. -/
def LogProcessor.ForceFlush (p : LogProcessor) (ctx : Ctx) : Option LifecycleResult :=
  match p.Processor with
  | none => none
  | some d => some ⟨d.forceFlush ctx, [DownCall.flushCall ctx], p⟩

/-- C1: on every factory-constructed gate, `OnEmit` reads the provider's
current minimum and, when the record severity is at least it, forwards
`ctx` and the record unchanged to the downstream processor and returns
exactly its result; otherwise it makes no downstream call and returns a
nil error. -/
theorem OnEmit_gates_by_severity (dOpt : Option Processor)
    (sOpt : Option Severitier) (k : Nat) (ctx : Ctx) (r : Record) :
    (NewLogProcessor dOpt sOpt).OnEmit k ctx r =
      if r.severity ≥ (sOpt.getD SeverityInfo) k then
        some ⟨(dOpt.getD defaultProcessor).onEmit ctx r, [DownCall.emit ctx r],
              k + 1, NewLogProcessor dOpt sOpt⟩
      else
        some ⟨none, [], k + 1, NewLogProcessor dOpt sOpt⟩ := by
  dsimp only [NewLogProcessor, LogProcessor.OnEmit]

/-- C2: on a gate whose downstream implements the filter capability,
`Enabled` answers true exactly when the queried severity is at least the
provider's current minimum and the downstream filter answers true on the
same parameters; when the severity test fails, the downstream filter is
not invoked at all. -/
theorem Enabled_with_filter (oe : Ctx → Record → Option Err)
    (f : Ctx → EnabledParameters → Bool) (sd ff : Ctx → Option Err)
    (sOpt : Option Severitier) (k : Nat) (ctx : Ctx) (param : EnabledParameters) :
    ((NewLogProcessor (some ⟨oe, some f, sd, ff⟩) sOpt).Enabled k ctx param).map
        EnabledResult.ok =
      some (decide (param.Severity ≥ (sOpt.getD SeverityInfo) k) && f ctx param)
    ∧ ((NewLogProcessor (some ⟨oe, some f, sd, ff⟩) sOpt).Enabled k ctx param).map
        EnabledResult.calls =
      some (if param.Severity ≥ (sOpt.getD SeverityInfo) k then
              [DownCall.enabledQ ctx param]
            else []) := by
  have h : (NewLogProcessor (some ⟨oe, some f, sd, ff⟩) sOpt).Enabled k ctx param =
      if param.Severity ≥ (sOpt.getD SeverityInfo) k then
        some ⟨f ctx param, [DownCall.enabledQ ctx param], k + 1,
              NewLogProcessor (some ⟨oe, some f, sd, ff⟩) sOpt⟩
      else
        some ⟨false, [], k + 1,
              NewLogProcessor (some ⟨oe, some f, sd, ff⟩) sOpt⟩ := by
    dsimp only [NewLogProcessor, LogProcessor.Enabled, Option.getD]
  constructor <;>
    · rw [h]
      by_cases hc : param.Severity ≥ (sOpt.getD SeverityInfo) k <;> simp [hc]

/-- C3: on a gate whose downstream has no filter capability, `Enabled`
answers true exactly when the queried severity is at least the provider's
current minimum (making no downstream call); and on every
factory-constructed gate, a query strictly below the minimum answers
false. -/
theorem Enabled_without_filter_and_below_min (oe : Ctx → Record → Option Err)
    (sd ff : Ctx → Option Err) (dOpt : Option Processor)
    (sOpt : Option Severitier) (k : Nat) (ctx : Ctx) (param : EnabledParameters) :
    (NewLogProcessor (some ⟨oe, none, sd, ff⟩) sOpt).Enabled k ctx param =
      some ⟨decide (param.Severity ≥ (sOpt.getD SeverityInfo) k), [], k + 1,
            NewLogProcessor (some ⟨oe, none, sd, ff⟩) sOpt⟩
    ∧ (param.Severity < (sOpt.getD SeverityInfo) k →
        ((NewLogProcessor dOpt sOpt).Enabled k ctx param).map EnabledResult.ok =
          some false) := by
  constructor
  · rfl
  · intro h
    cases hf : ((dOpt.getD defaultProcessor)).enabledFilter <;>
      simp [NewLogProcessor, LogProcessor.Enabled, hf, not_le.mpr h]

/-- Witness for C3 at a concrete below-minimum query: the default gate
(minimum Info = 9) answers false at severity 5. -/
theorem Enabled_without_filter_and_below_min_witness :
    ((NewLogProcessor none none).Enabled 0 0 ⟨5, 0⟩).map EnabledResult.ok =
      some false :=
  (Enabled_without_filter_and_below_min (fun _ _ => none) (fun _ => none)
    (fun _ => none) none none 0 0 ⟨5, 0⟩).2 (by decide)

/-- C4: `NewLogProcessor` never fails: a nil downstream is replaced by the
no-op processor and a nil severitier by the constant-Info provider, so the
constructed gate's downstream and provider fields are never nil and none
of its operations reaches the nil-dereference (panic) branch. -/
theorem NewLogProcessor_total_and_safe (dOpt : Option Processor)
    (sOpt : Option Severitier) (k : Nat) (ctx : Ctx) (r : Record)
    (param : EnabledParameters) :
    (NewLogProcessor none sOpt).Processor = some defaultProcessor
    ∧ (NewLogProcessor dOpt none).sev = some SeverityInfo
    ∧ (NewLogProcessor dOpt sOpt).Processor.isSome = true
    ∧ (NewLogProcessor dOpt sOpt).sev.isSome = true
    ∧ ((NewLogProcessor dOpt sOpt).OnEmit k ctx r).isSome = true
    ∧ ((NewLogProcessor dOpt sOpt).Enabled k ctx param).isSome = true
    ∧ ((NewLogProcessor dOpt sOpt).Shutdown ctx).isSome = true
    ∧ ((NewLogProcessor dOpt sOpt).ForceFlush ctx).isSome = true := by
  refine ⟨rfl, rfl, rfl, rfl, ?_, ?_, rfl, rfl⟩
  · dsimp only [NewLogProcessor, LogProcessor.OnEmit]
    split <;> rfl
  · cases hf : ((dOpt.getD defaultProcessor)).enabledFilter <;>
      simp [NewLogProcessor, LogProcessor.Enabled, hf] <;> split <;> simp

/-- C5: a gate built with no downstream wraps the no-op processor: every
`OnEmit` returns a nil error (any forwarding reaches only the no-op sink,
whose emit is the constant nil function, so nothing observable happens)
and every `Enabled` query answers false, at every severity. -/
theorem nil_downstream_noop (sOpt : Option Severitier) (k : Nat) (ctx : Ctx)
    (r : Record) (param : EnabledParameters) :
    (NewLogProcessor none sOpt).Processor = some noopProcessor
    ∧ noopProcessor.onEmit ctx r = none
    ∧ (NewLogProcessor none sOpt).OnEmit k ctx r =
        some ⟨none,
              if r.severity ≥ (sOpt.getD SeverityInfo) k then
                [DownCall.emit ctx r]
              else [],
              k + 1, NewLogProcessor none sOpt⟩
    ∧ (NewLogProcessor none sOpt).Enabled k ctx param =
        some ⟨false,
              if param.Severity ≥ (sOpt.getD SeverityInfo) k then
                [DownCall.enabledQ ctx param]
              else [],
              k + 1, NewLogProcessor none sOpt⟩ := by
  refine ⟨rfl, rfl, ?_, ?_⟩
  · dsimp only [NewLogProcessor, LogProcessor.OnEmit, Option.getD,
      defaultProcessor, noopProcessor]
    split <;> rfl
  · dsimp only [NewLogProcessor, LogProcessor.Enabled, Option.getD,
      defaultProcessor, noopProcessor]
    split <;> rfl

/-- C6: the provider is re-read on every call: if its value rises above a
record's severity between one `OnEmit` call (read index `k`) and the next
(read index `k + 1`, as reported by the first call), the same gate — not
reconstructed — forwards on the first call and drops on the very next
one, and an `Enabled` query at that severity on the next call answers
false. -/
theorem dynamic_provider_next_call (dOpt : Option Processor)
    (sOpt : Option Severitier) (k : Nat) (ctx ctx2 : Ctx) (r : Record) (m : Nat)
    (h1 : (sOpt.getD SeverityInfo) k ≤ r.severity)
    (h2 : r.severity < (sOpt.getD SeverityInfo) (k + 1)) :
    ((NewLogProcessor dOpt sOpt).OnEmit k ctx r).map EmitResult.reads =
      some (k + 1)
    ∧ ((NewLogProcessor dOpt sOpt).OnEmit k ctx r).map EmitResult.calls =
        some [DownCall.emit ctx r]
    ∧ ((NewLogProcessor dOpt sOpt).OnEmit (k + 1) ctx2 r).map EmitResult.calls =
        some []
    ∧ ((NewLogProcessor dOpt sOpt).Enabled (k + 1) ctx2 ⟨r.severity, m⟩).map
        EnabledResult.ok = some false := by
  refine ⟨?_, ?_, ?_, ?_⟩
  · dsimp only [NewLogProcessor, LogProcessor.OnEmit]
    split <;> rfl
  · simp [NewLogProcessor, LogProcessor.OnEmit, ge_iff_le, h1]
  · simp [NewLogProcessor, LogProcessor.OnEmit, ge_iff_le, not_le.mpr h2]
  · cases hf : ((dOpt.getD defaultProcessor)).enabledFilter <;>
      simp [NewLogProcessor, LogProcessor.Enabled, hf, not_le.mpr h2]

/-- Witness for C6: with a provider reading 3 then 10, a severity-5 record
is forwarded on the first call and dropped on the next. -/
theorem dynamic_provider_next_call_witness :
    ((NewLogProcessor none
        (some (fun n => if n = 0 then (3 : Int) else 10))).OnEmit 0 0
        ⟨5, 0⟩).map EmitResult.calls = some [DownCall.emit 0 ⟨5, 0⟩]
    ∧ ((NewLogProcessor none
        (some (fun n => if n = 0 then (3 : Int) else 10))).OnEmit 1 1
        ⟨5, 0⟩).map EmitResult.calls = some [] :=
  ⟨(dynamic_provider_next_call none
      (some (fun n => if n = 0 then (3 : Int) else 10)) 0 0 1 ⟨5, 0⟩ 0
      (by decide) (by decide)).2.1,
   (dynamic_provider_next_call none
      (some (fun n => if n = 0 then (3 : Int) else 10)) 0 0 1 ⟨5, 0⟩ 0
      (by decide) (by decide)).2.2.1⟩

/-- C7: `Shutdown` and `ForceFlush` are forwarded verbatim: each makes
exactly the corresponding downstream call on the same argument and
returns exactly the downstream's result, with no other behavior. -/
theorem passthrough_lifecycle (dOpt : Option Processor)
    (sOpt : Option Severitier) (ctx : Ctx) :
    (NewLogProcessor dOpt sOpt).Shutdown ctx =
      some ⟨(dOpt.getD defaultProcessor).shutdown ctx,
            [DownCall.shutdownCall ctx], NewLogProcessor dOpt sOpt⟩
    ∧ (NewLogProcessor dOpt sOpt).ForceFlush ctx =
      some ⟨(dOpt.getD defaultProcessor).forceFlush ctx,
            [DownCall.flushCall ctx], NewLogProcessor dOpt sOpt⟩ :=
  ⟨rfl, rfl⟩

/-- C8: the gate is immutable: every operation leaves the gate — its
downstream, filter and provider fields — exactly as constructed. -/
theorem gate_immutable (dOpt : Option Processor) (sOpt : Option Severitier)
    (k : Nat) (ctx : Ctx) (r : Record) (param : EnabledParameters) :
    ((NewLogProcessor dOpt sOpt).OnEmit k ctx r).map EmitResult.gate =
      some (NewLogProcessor dOpt sOpt)
    ∧ ((NewLogProcessor dOpt sOpt).Enabled k ctx param).map EnabledResult.gate =
      some (NewLogProcessor dOpt sOpt)
    ∧ ((NewLogProcessor dOpt sOpt).Shutdown ctx).map LifecycleResult.gate =
      some (NewLogProcessor dOpt sOpt)
    ∧ ((NewLogProcessor dOpt sOpt).ForceFlush ctx).map LifecycleResult.gate =
      some (NewLogProcessor dOpt sOpt) := by
  refine ⟨?_, ?_, rfl, rfl⟩
  · dsimp only [NewLogProcessor, LogProcessor.OnEmit]
    split <;> rfl
  · cases hf : ((dOpt.getD defaultProcessor)).enabledFilter <;>
      simp [NewLogProcessor, LogProcessor.Enabled, hf] <;> split <;>
        exact ⟨_, rfl, rfl⟩

/-- C9: each `OnEmit` and each `Enabled` call reads the provider's
`Severity()` exactly once: the read index advances from `k` to `k + 1` on
every call, on every path. -/
theorem provider_read_once (dOpt : Option Processor) (sOpt : Option Severitier)
    (k : Nat) (ctx : Ctx) (r : Record) (param : EnabledParameters) :
    ((NewLogProcessor dOpt sOpt).OnEmit k ctx r).map EmitResult.reads =
      some (k + 1)
    ∧ ((NewLogProcessor dOpt sOpt).Enabled k ctx param).map EnabledResult.reads =
      some (k + 1) := by
  constructor
  · dsimp only [NewLogProcessor, LogProcessor.OnEmit]
    split <;> rfl
  · cases hf : ((dOpt.getD defaultProcessor)).enabledFilter <;>
      simp [NewLogProcessor, LogProcessor.Enabled, hf] <;> split <;>
        exact ⟨_, rfl, rfl⟩

/-- C10: every factory-constructed gate answers `Enabled` queries (it is
itself filter-capable), even when the wrapped downstream is not; in that
case its answer is exactly the severity comparison. -/
theorem gate_is_filter_capable (dOpt : Option Processor)
    (oe : Ctx → Record → Option Err) (sd ff : Ctx → Option Err)
    (sOpt : Option Severitier) (k : Nat) (ctx : Ctx) (param : EnabledParameters) :
    ((NewLogProcessor dOpt sOpt).Enabled k ctx param).isSome = true
    ∧ ((NewLogProcessor (some ⟨oe, none, sd, ff⟩) sOpt).Enabled k ctx param).map
        EnabledResult.ok =
      some (decide (param.Severity ≥ (sOpt.getD SeverityInfo) k)) := by
  constructor
  · cases hf : ((dOpt.getD defaultProcessor)).enabledFilter <;>
      simp [NewLogProcessor, LogProcessor.Enabled, hf] <;> split <;> simp
  · rfl

end Minsev
